import Mathlib

/-!
Verification development for the Modbus core of verify-rs485-demo.

Shallow embedding conventions:
* Byte buffers are `List Nat`; every entry that models a C `uint8_t` cell is
  kept below 256 by the writers (stores perform the `% 256` truncation of a
  `uint8_t` assignment).  Loads are `List.getD buf i 0`.
* C `int` return codes become `Int`.
* A nullable pointer becomes an `Option`.
* The transport operation table (`mb_backend_ops_t`) is a record of total
  Lean functions; the inner non-blocking `read` operation is modelled by an
  oracle list of `ReadEvent`s (one entry per loop iteration: the value the
  inner read returned and the millisecond clock at that iteration).
-/

/- ---------------------------------------------------------------------
   Byte codec, from modbus_byte_order_convert.c.
   `modbus_cvt_u8_put` stores one `uint8_t`; `modbus_cvt_u16_put` stores the
   high byte then the low byte (big endian); `modbus_cvt_u16_get` rebuilds a
   `uint16_t` from two `uint8_t` loads (`uval = hi; uval <<= 8; uval += lo`).
   --------------------------------------------------------------------- -/

def modbus_cvt_u8_put (val : Nat) : List Nat := [val % 256]

def modbus_cvt_u16_put (val : Nat) : List Nat := [(val >>> 8) % 256, val % 256]

def modbus_cvt_u16_get (b0 b1 : Nat) : Nat := (((b0 % 256) <<< 8) + (b1 % 256)) % 65536

/- ---------------------------------------------------------------------
   CRC-16.
   Modelled from the spec: the file implementing `modbus_crc_cal`
   (modbus_crc.c / modbus_crc.h) is not present under src/; spec section 4.2
   defines it exactly: seed 0xFFFF, per byte XOR into the low byte of the CRC
   then eight shift-right steps, XOR-ing 0xA001 whenever the shifted-out bit
   is one.  The frame writer appends the CRC little endian.
   --------------------------------------------------------------------- -/

def crcStep (x : Nat) : Nat :=
  if x % 2 = 1 then (x >>> 1) ^^^ 0xA001 else x >>> 1

def crcStep8 (x : Nat) : Nat :=
  crcStep (crcStep (crcStep (crcStep (crcStep (crcStep (crcStep (crcStep x)))))))

def crcByteStep (c b : Nat) : Nat := crcStep8 (c ^^^ (b % 256))

def modbus_crc_cal (bytes : List Nat) : Nat := bytes.foldl crcByteStep 0xFFFF

/- ---------------------------------------------------------------------
   PDU data model, from the shapes used in modbus_pdu.c.  The C `mb_pdu_t`
   is a union of the shape structs, each of which begins with the `fc` byte;
   it is modelled as a sum.  Function-code numerals: the header defining the
   MODBUS_FC_* enumeration (modbus_pdu.h) is not under src/; the values are
   taken from spec section 4.1 (0x01..0x06, 0x0F, 0x10, 0x16, 0x17, and the
   exception indicator `fc OR 0x80`), which matches the standard set.
   --------------------------------------------------------------------- -/

structure MbPduRdReq where
  fc : Nat
  addr : Nat
  nb : Nat
  deriving DecidableEq, Repr

structure MbPduRdRsp where
  fc : Nat
  dlen : Nat
  pdata : List Nat
  deriving DecidableEq, Repr

structure MbPduWrSingle where
  fc : Nat
  addr : Nat
  val : Nat
  deriving DecidableEq, Repr

structure MbPduWrReq where
  fc : Nat
  addr : Nat
  nb : Nat
  dlen : Nat
  pdata : List Nat
  deriving DecidableEq, Repr

structure MbPduWrRsp where
  fc : Nat
  addr : Nat
  nb : Nat
  deriving DecidableEq, Repr

structure MbPduMaskWr where
  fc : Nat
  addr : Nat
  val_and : Nat
  val_or : Nat
  deriving DecidableEq, Repr

structure MbPduWrRdReq where
  fc : Nat
  rd_addr : Nat
  rd_nb : Nat
  wr_addr : Nat
  wr_nb : Nat
  dlen : Nat
  pdata : List Nat
  deriving DecidableEq, Repr

structure MbPduExcept where
  fc : Nat
  ec : Nat
  deriving DecidableEq, Repr

inductive MbPdu where
  | rdReq (v : MbPduRdReq)
  | rdRsp (v : MbPduRdRsp)
  | wrSingle (v : MbPduWrSingle)
  | wrReq (v : MbPduWrReq)
  | wrRsp (v : MbPduWrRsp)
  | maskWr (v : MbPduMaskWr)
  | wrRdReq (v : MbPduWrRdReq)
  | exc (v : MbPduExcept)
  deriving DecidableEq, Repr

inductive MbPduType where
  | req
  | rsp
  deriving DecidableEq, Repr

/-- MODBUS_FC_EXCEPT_CHK: the high bit of the function code is set. -/
def MODBUS_FC_EXCEPT_CHK (fc : Nat) : Bool := fc &&& 0x80 != 0

/- Per-shape serializers (modbus_pdu_*_make).  Each mirrors the pointer walk
   of the C function; `memcpy(p, pdata, dlen)` becomes `pdata.take dlen`. -/

def modbus_pdu_except_make (e : MbPduExcept) : List Nat :=
  modbus_cvt_u8_put e.fc ++ modbus_cvt_u8_put e.ec

def modbus_pdu_rd_req_make (r : MbPduRdReq) : List Nat :=
  modbus_cvt_u8_put r.fc ++ modbus_cvt_u16_put r.addr ++ modbus_cvt_u16_put r.nb

def modbus_pdu_rd_rsp_make (r : MbPduRdRsp) : List Nat :=
  modbus_cvt_u8_put r.fc ++ modbus_cvt_u8_put r.dlen ++ r.pdata.take r.dlen

def modbus_pdu_wr_single_make (w : MbPduWrSingle) : List Nat :=
  modbus_cvt_u8_put w.fc ++ modbus_cvt_u16_put w.addr ++ modbus_cvt_u16_put w.val

def modbus_pdu_wr_req_make (w : MbPduWrReq) : List Nat :=
  modbus_cvt_u8_put w.fc ++ modbus_cvt_u16_put w.addr ++ modbus_cvt_u16_put w.nb ++
    modbus_cvt_u8_put w.dlen ++ w.pdata.take w.dlen

def modbus_pdu_wr_rsp_make (w : MbPduWrRsp) : List Nat :=
  modbus_cvt_u8_put w.fc ++ modbus_cvt_u16_put w.addr ++ modbus_cvt_u16_put w.nb

def modbus_pdu_mask_wr_make (m : MbPduMaskWr) : List Nat :=
  modbus_cvt_u8_put m.fc ++ modbus_cvt_u16_put m.addr ++
    modbus_cvt_u16_put m.val_and ++ modbus_cvt_u16_put m.val_or

def modbus_pdu_wr_rd_req_make (w : MbPduWrRdReq) : List Nat :=
  modbus_cvt_u8_put w.fc ++ modbus_cvt_u16_put w.rd_addr ++ modbus_cvt_u16_put w.rd_nb ++
    modbus_cvt_u16_put w.wr_addr ++ modbus_cvt_u16_put w.wr_nb ++
    modbus_cvt_u8_put w.dlen ++ w.pdata.take w.dlen

/- Per-shape deserializers (modbus_pdu_*_parse).  Each returns the C return
   value (0 on the minimum-length failure, otherwise the number of bytes the
   pointer walk consumed) together with the struct the C code fills in
   (`none` when the early return leaves it untouched).  Note that
   modbus_pdu_rd_rsp_parse, exactly like the C source, performs NO check
   that `len` covers `2 + dlen`: it returns `2 + dlen` regardless. -/

def modbus_pdu_except_parse (buf : List Nat) (len : Int) : Int × Option MbPduExcept :=
  if len < 2 then (0, none)
  else (2, some ⟨buf.getD 0 0, buf.getD 1 0⟩)

def modbus_pdu_rd_req_parse (buf : List Nat) (len : Int) : Int × Option MbPduRdReq :=
  if len < 5 then (0, none)
  else (5, some ⟨buf.getD 0 0,
                 modbus_cvt_u16_get (buf.getD 1 0) (buf.getD 2 0),
                 modbus_cvt_u16_get (buf.getD 3 0) (buf.getD 4 0)⟩)

def modbus_pdu_rd_rsp_parse (buf : List Nat) (len : Int) : Int × Option MbPduRdRsp :=
  if len < 3 then (0, none)
  else
    let dlen := buf.getD 1 0
    (((2 + dlen : Nat) : Int), some ⟨buf.getD 0 0, dlen, (buf.drop 2).take dlen⟩)

def modbus_pdu_wr_single_parse (buf : List Nat) (len : Int) : Int × Option MbPduWrSingle :=
  if len < 5 then (0, none)
  else (5, some ⟨buf.getD 0 0,
                 modbus_cvt_u16_get (buf.getD 1 0) (buf.getD 2 0),
                 modbus_cvt_u16_get (buf.getD 3 0) (buf.getD 4 0)⟩)

def modbus_pdu_wr_req_parse (buf : List Nat) (len : Int) : Int × Option MbPduWrReq :=
  if len < 7 then (0, none)
  else
    let dlen := buf.getD 5 0
    (((6 + dlen : Nat) : Int),
     some ⟨buf.getD 0 0,
           modbus_cvt_u16_get (buf.getD 1 0) (buf.getD 2 0),
           modbus_cvt_u16_get (buf.getD 3 0) (buf.getD 4 0),
           dlen, (buf.drop 6).take dlen⟩)

def modbus_pdu_wr_rsp_parse (buf : List Nat) (len : Int) : Int × Option MbPduWrRsp :=
  if len < 5 then (0, none)
  else (5, some ⟨buf.getD 0 0,
                 modbus_cvt_u16_get (buf.getD 1 0) (buf.getD 2 0),
                 modbus_cvt_u16_get (buf.getD 3 0) (buf.getD 4 0)⟩)

def modbus_pdu_mask_wr_parse (buf : List Nat) (len : Int) : Int × Option MbPduMaskWr :=
  if len < 7 then (0, none)
  else (7, some ⟨buf.getD 0 0,
                 modbus_cvt_u16_get (buf.getD 1 0) (buf.getD 2 0),
                 modbus_cvt_u16_get (buf.getD 3 0) (buf.getD 4 0),
                 modbus_cvt_u16_get (buf.getD 5 0) (buf.getD 6 0)⟩)

def modbus_pdu_wr_rd_req_parse (buf : List Nat) (len : Int) : Int × Option MbPduWrRdReq :=
  if len < 11 then (0, none)
  else
    let dlen := buf.getD 9 0
    (((10 + dlen : Nat) : Int),
     some ⟨buf.getD 0 0,
           modbus_cvt_u16_get (buf.getD 1 0) (buf.getD 2 0),
           modbus_cvt_u16_get (buf.getD 3 0) (buf.getD 4 0),
           modbus_cvt_u16_get (buf.getD 5 0) (buf.getD 6 0),
           modbus_cvt_u16_get (buf.getD 7 0) (buf.getD 8 0),
           dlen, (buf.drop 10).take dlen⟩)

/- Direction dispatchers.  The C functions switch on `pdu->fc` (make) or on
   the first buffer byte (parse).  On the make side the C argument is a
   union; calling a shape serializer through a variant whose tag byte does
   not belong to that shape is a meaningless type pun, modelled as `none`,
   as is the `return 0` of an unsupported function code. -/

def modbus_pdu_req_make (pdu : MbPdu) : Option (List Nat) :=
  match pdu with
  | .rdReq r =>
      if r.fc = 0x01 ∨ r.fc = 0x02 ∨ r.fc = 0x03 ∨ r.fc = 0x04 then
        some (modbus_pdu_rd_req_make r) else none
  | .wrSingle w =>
      if w.fc = 0x05 ∨ w.fc = 0x06 then some (modbus_pdu_wr_single_make w) else none
  | .wrReq w =>
      if w.fc = 0x0F ∨ w.fc = 0x10 then some (modbus_pdu_wr_req_make w) else none
  | .maskWr m =>
      if m.fc = 0x16 then some (modbus_pdu_mask_wr_make m) else none
  | .wrRdReq w =>
      if w.fc = 0x17 then some (modbus_pdu_wr_rd_req_make w) else none
  | _ => none

def mb_pdu_rsp_make (pdu : MbPdu) : Option (List Nat) :=
  match pdu with
  | .exc e =>
      if MODBUS_FC_EXCEPT_CHK e.fc then some (modbus_pdu_except_make e) else none
  | .rdRsp r =>
      if MODBUS_FC_EXCEPT_CHK r.fc = false ∧
         (r.fc = 0x01 ∨ r.fc = 0x02 ∨ r.fc = 0x03 ∨ r.fc = 0x04 ∨ r.fc = 0x17) then
        some (modbus_pdu_rd_rsp_make r) else none
  | .wrSingle w =>
      if MODBUS_FC_EXCEPT_CHK w.fc = false ∧ (w.fc = 0x05 ∨ w.fc = 0x06) then
        some (modbus_pdu_wr_single_make w) else none
  | .wrRsp w =>
      if MODBUS_FC_EXCEPT_CHK w.fc = false ∧ (w.fc = 0x0F ∨ w.fc = 0x10) then
        some (modbus_pdu_wr_rsp_make w) else none
  | .maskWr m =>
      if MODBUS_FC_EXCEPT_CHK m.fc = false ∧ m.fc = 0x16 then
        some (modbus_pdu_mask_wr_make m) else none
  | _ => none

def modbus_pdu_req_parse (buf : List Nat) (len : Int) : Int × Option MbPdu :=
  let fc := buf.getD 0 0
  if fc = 0x01 ∨ fc = 0x02 ∨ fc = 0x03 ∨ fc = 0x04 then
    let p := modbus_pdu_rd_req_parse buf len
    (p.1, p.2.map MbPdu.rdReq)
  else if fc = 0x05 ∨ fc = 0x06 then
    let p := modbus_pdu_wr_single_parse buf len
    (p.1, p.2.map MbPdu.wrSingle)
  else if fc = 0x0F ∨ fc = 0x10 then
    let p := modbus_pdu_wr_req_parse buf len
    (p.1, p.2.map MbPdu.wrReq)
  else if fc = 0x16 then
    let p := modbus_pdu_mask_wr_parse buf len
    (p.1, p.2.map MbPdu.maskWr)
  else if fc = 0x17 then
    let p := modbus_pdu_wr_rd_req_parse buf len
    (p.1, p.2.map MbPdu.wrRdReq)
  else (-1, none)

def modbus_pdu_rsp_parse (buf : List Nat) (len : Int) : Int × Option MbPdu :=
  let fc := buf.getD 0 0
  if MODBUS_FC_EXCEPT_CHK fc then
    let p := modbus_pdu_except_parse buf len
    (p.1, p.2.map MbPdu.exc)
  else if fc = 0x01 ∨ fc = 0x02 ∨ fc = 0x03 ∨ fc = 0x04 ∨ fc = 0x17 then
    let p := modbus_pdu_rd_rsp_parse buf len
    (p.1, p.2.map MbPdu.rdRsp)
  else if fc = 0x05 ∨ fc = 0x06 then
    let p := modbus_pdu_wr_single_parse buf len
    (p.1, p.2.map MbPdu.wrSingle)
  else if fc = 0x0F ∨ fc = 0x10 then
    let p := modbus_pdu_wr_rsp_parse buf len
    (p.1, p.2.map MbPdu.wrRsp)
  else if fc = 0x16 then
    let p := modbus_pdu_mask_wr_parse buf len
    (p.1, p.2.map MbPdu.maskWr)
  else (-1, none)

def modbus_pdu_make (pdu : MbPdu) (ty : MbPduType) : Option (List Nat) :=
  match ty with
  | .req => modbus_pdu_req_make pdu
  | .rsp => mb_pdu_rsp_make pdu

def modbus_pdu_parse (buf : List Nat) (len : Int) (ty : MbPduType) : Int × Option MbPdu :=
  match ty with
  | .req => modbus_pdu_req_parse buf len
  | .rsp => modbus_pdu_rsp_parse buf len

/-- Validity of a PDU value for a direction: the variant matches the
function code stored in its tag byte, multi-byte fields fit their C types
(`uint16_t` fields below 65536, `uint8_t` byte counts below 256), payload
shapes carry at least one data byte and a payload list of exactly `dlen`
entries, and an exception carries a function code with the high bit set. -/
def pduValid : MbPduType → MbPdu → Prop
  | .req, .rdReq r =>
      (r.fc = 0x01 ∨ r.fc = 0x02 ∨ r.fc = 0x03 ∨ r.fc = 0x04) ∧
      r.addr < 65536 ∧ r.nb < 65536
  | .req, .wrSingle w =>
      (w.fc = 0x05 ∨ w.fc = 0x06) ∧ w.addr < 65536 ∧ w.val < 65536
  | .req, .wrReq w =>
      (w.fc = 0x0F ∨ w.fc = 0x10) ∧ w.addr < 65536 ∧ w.nb < 65536 ∧
      1 ≤ w.dlen ∧ w.dlen < 256 ∧ w.pdata.length = w.dlen
  | .req, .maskWr m =>
      m.fc = 0x16 ∧ m.addr < 65536 ∧ m.val_and < 65536 ∧ m.val_or < 65536
  | .req, .wrRdReq w =>
      w.fc = 0x17 ∧ w.rd_addr < 65536 ∧ w.rd_nb < 65536 ∧
      w.wr_addr < 65536 ∧ w.wr_nb < 65536 ∧
      1 ≤ w.dlen ∧ w.dlen < 256 ∧ w.pdata.length = w.dlen
  | .rsp, .exc e => 128 ≤ e.fc ∧ e.fc < 256 ∧ e.ec < 256
  | .rsp, .rdRsp r =>
      (r.fc = 0x01 ∨ r.fc = 0x02 ∨ r.fc = 0x03 ∨ r.fc = 0x04 ∨ r.fc = 0x17) ∧
      1 ≤ r.dlen ∧ r.dlen < 256 ∧ r.pdata.length = r.dlen
  | .rsp, .wrSingle w =>
      (w.fc = 0x05 ∨ w.fc = 0x06) ∧ w.addr < 65536 ∧ w.val < 65536
  | .rsp, .wrRsp w =>
      (w.fc = 0x0F ∨ w.fc = 0x10) ∧ w.addr < 65536 ∧ w.nb < 65536
  | .rsp, .maskWr m =>
      m.fc = 0x16 ∧ m.addr < 65536 ∧ m.val_and < 65536 ∧ m.val_or < 65536
  | _, _ => False

/- ---------------------------------------------------------------------
   RTU frame wrapper, from modbus_rtu.c.  MB_PDU_SIZE_MIN lives in the
   missing modbus_pdu.h; modelled from the spec: the minimum RTU frame
   length is 4 (address + minimal 1-byte PDU + 2-byte CRC), so
   MB_PDU_SIZE_MIN = 1.
   --------------------------------------------------------------------- -/

def MB_RTU_SADDR_SIZE : Nat := 1

def MB_RTU_CRC_SIZE : Nat := 2

/-- Modelled from the spec: MB_PDU_SIZE_MIN is defined in the missing
modbus_pdu.h; spec section 3 fixes the minimum RTU frame length at 4,
which forces the minimum PDU size to 1. -/
def MB_PDU_SIZE_MIN : Nat := 1

def MB_RTU_FRM_MIN : Nat := MB_RTU_SADDR_SIZE + MB_RTU_CRC_SIZE + MB_PDU_SIZE_MIN

/-- modbus_rtu_frame_make: address byte, PDU bytes, CRC little endian.
The C code assembles a frame even when the inner PDU make fails (returns
length 0); that degenerate case is modelled as `none` since no claim
exercises it. -/
def modbus_rtu_frame_make (saddr : Nat) (pdu : MbPdu) (ty : MbPduType) : Option (List Nat) :=
  match modbus_pdu_make pdu ty with
  | none => none
  | some pb =>
      let msg := modbus_cvt_u8_put saddr ++ pb
      let crc := modbus_crc_cal msg
      some (msg ++ [crc % 256, (crc >>> 8) % 256])

/-- modbus_rtu_frame_parse: minimum length, PDU parse over `len - 3`, length
consistency, CRC residue over the whole frame must be 0. -/
def modbus_rtu_frame_parse (buf : List Nat) (len : Int) (ty : MbPduType) :
    Int × Option (Nat × MbPdu) :=
  if len < (MB_RTU_FRM_MIN : Int) then (0, none)
  else
    let saddr := buf.getD 0 0
    let remain := len - ((MB_RTU_SADDR_SIZE + MB_RTU_CRC_SIZE : Nat) : Int)
    let p := modbus_pdu_parse (buf.drop 1) remain ty
    if p.1 ≤ 0 then (p.1, none)
    else if remain < p.1 then (0, none)
    else
      let flen := p.1 + ((MB_RTU_SADDR_SIZE + MB_RTU_CRC_SIZE : Nat) : Int)
      if modbus_crc_cal (buf.take flen.toNat) ≠ 0 then (0, none)
      else (p.1, p.2.map (fun q => (saddr, q)))

/- ---------------------------------------------------------------------
   Transport backend, from modbus_backend.c / modbus_backend.h.
   The operation table is a record of total functions (the C code's
   `ops == NULL` / member `== NULL` defensive checks cannot fire in the
   model, matching spec section 9: the optional `open` of the adopted-socket
   variant is an `Option`, the rest are always present).  Handles are `Int`
   (`some h` is a non-null pointer / fd cast).  The inner read operation is
   driven by the `ReadEvent` oracle below instead of a function field.
   --------------------------------------------------------------------- -/

inductive mb_backend_type_t where
  | rtu
  | tcp
  | sock
  deriving DecidableEq, Repr

inductive mb_backend_param_t where
  | rtu (dev : String) (baudrate parity pin lvl : Int)
  | tcp (host : String) (port : Int)
  | sock (fd : Int)
  deriving DecidableEq, Repr

structure mb_backend_ops_t where
  opn : Option (mb_backend_param_t → Option Int)
  close : Int → Int
  write : Int → Int → Int
  flush : Int → Int

structure mb_backend_t where
  type : mb_backend_type_t
  param : mb_backend_param_t
  ops : mb_backend_ops_t
  ack_tmo_ms : Int
  byte_tmo_ms : Int
  hinst : Option Int

def MB_BKD_ACK_TMO_MS_DEF : Int := 300

def MB_BKD_BYTE_TMO_MS_DEF : Int := 32

/-- The external TCP port operations that the adopted-socket table reuses
(modbus_port_tcp_close / _read / _write / _flush are collaborators outside
the core; read results are delivered through the `ReadEvent` oracle). -/
structure mb_port_tcp_t where
  close : Int → Int
  write : Int → Int → Int
  flush : Int → Int

/-- mb_port_sock_ops: open is NULL, the rest reuse the TCP port
implementation. -/
def mb_port_sock_ops (port : mb_port_tcp_t) : mb_backend_ops_t :=
  { opn := none, close := port.close, write := port.write, flush := port.flush }

/-- modbus_backend_create_sock: adopts an external fd; `hinst` receives the
C cast `(void *)(sock->fd)`, which is the null pointer exactly when the fd
is 0. -/
def modbus_backend_create_sock (port : mb_port_tcp_t) (fd : Int) : mb_backend_t :=
  { type := .sock
    param := .sock fd
    ops := mb_port_sock_ops port
    ack_tmo_ms := MB_BKD_ACK_TMO_MS_DEF
    byte_tmo_ms := MB_BKD_BYTE_TMO_MS_DEF
    hinst := if fd = 0 then none else some fd }

/-- modbus_backend_open: NULL backend is -1; an already-open backend (hinst
non-null) returns 0 untouched; a null open operation returns -1; otherwise
the open operation runs and its null result is -1. -/
def modbus_backend_open : Option mb_backend_t → Int × Option mb_backend_t
  | none => (-1, none)
  | some b =>
      if b.hinst.isSome then (0, some b)
      else
        match b.ops.opn with
        | none => (-1, some b)
        | some f =>
            let h := f b.param
            if h.isNone then (-1, some { b with hinst := h })
            else (0, some { b with hinst := h })

/-- modbus_backend_close: NULL backend is -1; an already-closed backend
returns 0 untouched; a failing close operation returns -1 and leaves the
handle; only a successful close clears the handle. -/
def modbus_backend_close : Option mb_backend_t → Int × Option mb_backend_t
  | none => (-1, none)
  | some b =>
      match b.hinst with
      | none => (0, some b)
      | some h =>
          if b.ops.close h ≠ 0 then (-1, some b)
          else (0, some { b with hinst := none })

/-- One iteration of the dual-timeout read loop as seen by the model: the
value the inner non-blocking read returned this iteration and the
millisecond clock at this iteration. -/
structure ReadEvent where
  len : Int
  now : Int
  deriving DecidableEq, Repr

/-- The while-loop of modbus_backend_read.  `pos` is the cursor, `told` the
last-progress time.  Running out of oracle events before the loop breaks
(the C loop would keep polling) yields `none`. -/
def modbus_backend_read_loop (bufsize byteTmo ackTmo : Int) :
    List ReadEvent → Int → Int → Option Int
  | [], pos, _ => if bufsize ≤ pos then some pos else none
  | e :: es, pos, told =>
      if bufsize ≤ pos then some pos
      else if e.len < 0 then some (-1)
      else if 0 < e.len then
        modbus_backend_read_loop bufsize byteTmo ackTmo es (pos + e.len) e.now
      else if pos ≠ 0 then
        if byteTmo < e.now - told then some pos
        else modbus_backend_read_loop bufsize byteTmo ackTmo es pos told
      else
        if ackTmo < e.now - told then some pos
        else modbus_backend_read_loop bufsize byteTmo ackTmo es pos told

/-- Which exit of the read loop fires: buffer full, inner read error,
inter-byte timeout, response timeout, or oracle exhaustion. -/
inductive ReadStop where
  | full
  | err
  | byteTmo
  | ackTmo
  | starve
  deriving DecidableEq, Repr

/-- The same recursion as `modbus_backend_read_loop`, labelling the exit
taken. -/
def modbus_backend_read_stop (bufsize byteTmo ackTmo : Int) :
    List ReadEvent → Int → Int → ReadStop
  | [], pos, _ => if bufsize ≤ pos then .full else .starve
  | e :: es, pos, told =>
      if bufsize ≤ pos then .full
      else if e.len < 0 then .err
      else if 0 < e.len then
        modbus_backend_read_stop bufsize byteTmo ackTmo es (pos + e.len) e.now
      else if pos ≠ 0 then
        if byteTmo < e.now - told then .byteTmo
        else modbus_backend_read_stop bufsize byteTmo ackTmo es pos told
      else
        if ackTmo < e.now - told then .ackTmo
        else modbus_backend_read_stop bufsize byteTmo ackTmo es pos told

/-- The transport read contract of spec section 4.5: each inner read returns
at most the capacity it was offered (`bufsize - pos` at that point). -/
def respectsCap (bufsize : Int) : List ReadEvent → Int → Bool
  | [], _ => true
  | e :: es, pos =>
      decide (e.len ≤ bufsize - pos) &&
        (if 0 < e.len then respectsCap bufsize es (pos + e.len)
         else respectsCap bufsize es pos)

/-- modbus_backend_read: argument validation, open check, then the
dual-timeout loop.  `bufValid` stands for `buf != NULL`; `t0` is the initial
`modbus_port_get_ms()` reading. -/
def modbus_backend_read (b : Option mb_backend_t) (bufValid : Bool) (bufsize : Int)
    (evs : List ReadEvent) (t0 : Int) : Option Int :=
  match b with
  | none => some (-1)
  | some bk =>
      if bufValid = false ∨ bufsize ≤ 0 then some (-1)
      else if bk.hinst.isNone then some (-1)
      else modbus_backend_read_loop bufsize bk.byte_tmo_ms bk.ack_tmo_ms evs 0 t0

/-- modbus_backend_write: argument validation, open check, then the write
operation (data-independent model: the operation sees the handle and the
size). -/
def modbus_backend_write (b : Option mb_backend_t) (bufValid : Bool) (size : Int) : Int :=
  match b with
  | none => -1
  | some bk =>
      if bufValid = false ∨ size ≤ 0 then -1
      else
        match bk.hinst with
        | none => -1
        | some h => bk.ops.write h size

/-- modbus_recv (modbus_instance.c): backend read; on a negative result the
backend is closed before returning. -/
def modbus_recv (b : mb_backend_t) (bufValid : Bool) (bufsize : Int)
    (evs : List ReadEvent) (t0 : Int) : Option (Int × mb_backend_t) :=
  match modbus_backend_read (some b) bufValid bufsize evs t0 with
  | none => none
  | some len =>
      if len < 0 then some (len, ((modbus_backend_close (some b)).2).getD b)
      else some (len, b)

/-- modbus_send (modbus_instance.c): backend write; on a negative result the
backend is closed before returning. -/
def modbus_send (b : mb_backend_t) (bufValid : Bool) (size : Int) : Int × mb_backend_t :=
  let len := modbus_backend_write (some b) bufValid size
  if len < 0 then (len, ((modbus_backend_close (some b)).2).getD b)
  else (len, b)

/- ---------------------------------------------------------------------
   Concrete port tables and backends used to instantiate the theorems.
   --------------------------------------------------------------------- -/

/-- A trivial external TCP port table for the C1 instance. -/
def c1_port_stub : mb_port_tcp_t :=
  { close := fun _ => 0, write := fun _ _ => 0, flush := fun _ => 0 }

/-- A trivial external TCP port table for the C9 instances. -/
def c9_port_stub : mb_port_tcp_t :=
  { close := fun _ => 0, write := fun _ _ => 0, flush := fun _ => 0 }

/-- An already-open backend for the C9 instance. -/
def c9_open_backend : mb_backend_t :=
  { type := .sock
    param := .sock 7
    ops := mb_port_sock_ops c9_port_stub
    ack_tmo_ms := MB_BKD_ACK_TMO_MS_DEF
    byte_tmo_ms := MB_BKD_BYTE_TMO_MS_DEF
    hinst := some 5 }

/-- An operations table whose close always succeeds. -/
def c10_ops_ok : mb_backend_ops_t :=
  { opn := none, close := fun _ => 0, write := fun _ _ => 0, flush := fun _ => 0 }

/-- An operations table whose close always fails. -/
def c10_ops_bad : mb_backend_ops_t :=
  { opn := none, close := fun _ => -1, write := fun _ _ => 0, flush := fun _ => 0 }

/-- A closed backend for the C10 instance. -/
def c10_closed_backend : mb_backend_t :=
  { type := .sock, param := .sock 4, ops := c10_ops_ok
    ack_tmo_ms := 300, byte_tmo_ms := 32, hinst := none }

/-- An open backend whose close operation fails, for the C10 instance. -/
def c10_openfail_backend : mb_backend_t :=
  { type := .sock, param := .sock 4, ops := c10_ops_bad
    ack_tmo_ms := 300, byte_tmo_ms := 32, hinst := some 4 }

/-- An open backend whose close operation succeeds, for the C10 instance. -/
def c10_openok_backend : mb_backend_t :=
  { type := .sock, param := .sock 4, ops := c10_ops_ok
    ack_tmo_ms := 300, byte_tmo_ms := 32, hinst := some 4 }

/-- C7 counterexample backend: the write operation fails (-1) and the close
operation also fails, so the error path cannot clear the handle. -/
def c7_fail_backend : mb_backend_t :=
  { type := .sock
    param := .sock 1
    ops := { opn := none, close := fun _ => -1, write := fun _ _ => -1, flush := fun _ => 0 }
    ack_tmo_ms := 300, byte_tmo_ms := 32, hinst := some 1 }

/-- C7 witness backend: the write operation fails (-1) and the close
operation succeeds, so the error path clears the handle. -/
def c7_w_backend : mb_backend_t :=
  { type := .sock
    param := .sock 2
    ops := { opn := none, close := fun _ => 0, write := fun _ _ => -1, flush := fun _ => 0 }
    ack_tmo_ms := 300, byte_tmo_ms := 32, hinst := some 2 }

/-- An open backend with the default timeouts for the C5 instance. -/
def c5_backend : mb_backend_t :=
  { type := .rtu
    param := .sock 3
    ops := { opn := none, close := fun _ => 0, write := fun _ _ => 0, flush := fun _ => 0 }
    ack_tmo_ms := MB_BKD_ACK_TMO_MS_DEF, byte_tmo_ms := MB_BKD_BYTE_TMO_MS_DEF
    hinst := some 3 }

/- =====================================================================
   Theorems.
   ===================================================================== -/

/-- Helper: when every possible close succeeds, the backend produced by
`modbus_backend_close` has a null handle. -/
theorem close_clears_hinst (b : mb_backend_t)
    (hc : ∀ h, b.hinst = some h → b.ops.close h = 0) :
    (((modbus_backend_close (some b)).2).getD b).hinst = none := by
  cases hb : b.hinst with
  | none => simp [modbus_backend_close, hb]
  | some h => simp [modbus_backend_close, hb, hc h hb]

/-- C1: for an adopted-socket backend with a null open operation and a null
handle, `modbus_backend_open` is claimed to be a no-op returning 0; the code
instead returns -1 (`ops->open == NULL` is treated as an error).  This
theorem evaluates the code at the failing input: a sock backend adopted
from fd 0 has `hinst` null and a null open operation, and opening it
returns -1. -/
theorem c1_sock_null_open_returns_error :
    (mb_port_sock_ops c1_port_stub).opn = none ∧
    (modbus_backend_create_sock c1_port_stub 0).hinst = none ∧
    (modbus_backend_open (some (modbus_backend_create_sock c1_port_stub 0))).1 = -1 :=
  ⟨rfl, rfl, rfl⟩

/-- C2: the claim says a read-response parse with `3 ≤ len < 2 + byte-count`
returns 0; the code performs no such check.  Evaluating
`modbus_pdu_rsp_parse` on the buffer `[0x03, 0x06, 0xAA]` with len = 3
(byte-count 6, so len < 2 + 6): the code returns 8, not 0. -/
theorem c2_rd_rsp_len_check_missing :
    ((3 : Int) < 2 + 6) ∧ (modbus_pdu_rsp_parse [0x03, 0x06, 0xAA] 3).1 = 8 := by
  decide

/-- C9: a backend whose handle is already non-null is returned unchanged by
`modbus_backend_open` with result 0 (for every backend, hence independently
of the open operation); an adopted-socket backend created from a nonzero fd
has its handle set at creation and a null open operation, and opening it
succeeds and leaves it unchanged. -/
theorem c9_open_already_open :
    (∀ b : mb_backend_t, b.hinst.isSome = true →
        modbus_backend_open (some b) = (0, some b)) ∧
    (∀ (port : mb_port_tcp_t) (fd : Int), fd ≠ 0 →
        (modbus_backend_create_sock port fd).ops.opn = none ∧
        (modbus_backend_create_sock port fd).hinst = some fd ∧
        modbus_backend_open (some (modbus_backend_create_sock port fd)) =
          (0, some (modbus_backend_create_sock port fd))) := by
  constructor
  · intro b hb
    simp [modbus_backend_open, hb]
  · intro port fd hfd
    refine ⟨rfl, ?_, ?_⟩
    · simp [modbus_backend_create_sock, hfd]
    · simp [modbus_backend_open, modbus_backend_create_sock, hfd]

/-- C9 witness: the theorem applied to the concrete already-open backend
`c9_open_backend` and to a sock backend adopted from fd 3. -/
theorem c9_open_already_open_witness :
    (c9_open_backend.hinst.isSome = true ∧
      modbus_backend_open (some c9_open_backend) = (0, some c9_open_backend)) ∧
    ((3 : Int) ≠ 0 ∧
      modbus_backend_open (some (modbus_backend_create_sock c9_port_stub 3)) =
        (0, some (modbus_backend_create_sock c9_port_stub 3))) :=
  ⟨⟨rfl, c9_open_already_open.1 c9_open_backend rfl⟩,
   ⟨by decide, (c9_open_already_open.2 c9_port_stub 3 (by decide)).2.2⟩⟩

/-- C10: `modbus_backend_close` is atomic on failure: an already-closed
backend yields 0 unchanged (for every backend, hence without invoking the
close operation); a failing close operation yields -1 with the handle
unchanged; a successful close yields 0 and only then is the handle
cleared. -/
theorem c10_close_cases :
    (∀ b : mb_backend_t, b.hinst = none →
        modbus_backend_close (some b) = (0, some b)) ∧
    (∀ (b : mb_backend_t) (h : Int), b.hinst = some h → b.ops.close h ≠ 0 →
        modbus_backend_close (some b) = (-1, some b)) ∧
    (∀ (b : mb_backend_t) (h : Int), b.hinst = some h → b.ops.close h = 0 →
        modbus_backend_close (some b) = (0, some { b with hinst := none })) := by
  refine ⟨?_, ?_, ?_⟩
  · intro b hb
    simp [modbus_backend_close, hb]
  · intro b h hb hc
    simp [modbus_backend_close, hb, hc]
  · intro b h hb hc
    simp [modbus_backend_close, hb, hc]

/-- C10 witness: the three cases of the theorem at concrete backends. -/
theorem c10_close_cases_witness :
    (c10_closed_backend.hinst = none ∧
      modbus_backend_close (some c10_closed_backend) = (0, some c10_closed_backend)) ∧
    (c10_openfail_backend.hinst = some 4 ∧ c10_openfail_backend.ops.close 4 ≠ 0 ∧
      modbus_backend_close (some c10_openfail_backend) = (-1, some c10_openfail_backend)) ∧
    (c10_openok_backend.hinst = some 4 ∧ c10_openok_backend.ops.close 4 = 0 ∧
      modbus_backend_close (some c10_openok_backend) =
        (0, some { c10_openok_backend with hinst := none })) :=
  ⟨⟨rfl, c10_close_cases.1 _ rfl⟩,
   ⟨rfl, by decide, c10_close_cases.2.1 _ 4 rfl (by decide)⟩,
   ⟨rfl, rfl, c10_close_cases.2.2 _ 4 rfl rfl⟩⟩

/-- C7 counterexample: `modbus_send` on `c7_fail_backend` returns -1 (the
write operation failed) yet the backend's handle is still set afterwards,
because the close operation invoked by the error path itself failed; so a
-1 return does NOT guarantee a null handle. -/
theorem c7_counterexample_close_can_fail :
    (modbus_send c7_fail_backend true 1).1 = -1 ∧
    ((modbus_send c7_fail_backend true 1).2).hinst = some 1 :=
  ⟨rfl, rfl⟩

/-- C7 (amended): whenever `modbus_recv` or `modbus_send` returns a negative
count, `modbus_backend_close` has been applied to the backend before
returning; consequently the handle is null whenever the underlying close
operation succeeds (in particular whenever the backend was already
closed). -/
theorem c7_close_on_error :
    (∀ (b : mb_backend_t) (bufValid : Bool) (bufsize : Int) (evs : List ReadEvent)
        (t0 len : Int) (b' : mb_backend_t),
        modbus_recv b bufValid bufsize evs t0 = some (len, b') → len < 0 →
          b' = ((modbus_backend_close (some b)).2).getD b ∧
          ((∀ h, b.hinst = some h → b.ops.close h = 0) → b'.hinst = none)) ∧
    (∀ (b : mb_backend_t) (bufValid : Bool) (size len : Int) (b' : mb_backend_t),
        modbus_send b bufValid size = (len, b') → len < 0 →
          b' = ((modbus_backend_close (some b)).2).getD b ∧
          ((∀ h, b.hinst = some h → b.ops.close h = 0) → b'.hinst = none)) := by
  constructor
  · intro b bufValid bufsize evs t0 len b' hr hlen
    cases hread : modbus_backend_read (some b) bufValid bufsize evs t0 with
    | none =>
        simp only [modbus_recv, hread] at hr
        exact absurd hr (by simp)
    | some l =>
        simp only [modbus_recv, hread] at hr
        by_cases hl : l < 0
        · rw [if_pos hl] at hr
          simp only [Option.some.injEq, Prod.mk.injEq] at hr
          obtain ⟨hl1, hb'⟩ := hr
          subst hb'
          exact ⟨rfl, fun hc => close_clears_hinst b hc⟩
        · rw [if_neg hl] at hr
          simp only [Option.some.injEq, Prod.mk.injEq] at hr
          obtain ⟨hl1, hb'⟩ := hr
          omega
  · intro b bufValid size len b' hs hlen
    rw [modbus_send] at hs
    by_cases hl : modbus_backend_write (some b) bufValid size < 0
    · rw [if_pos hl] at hs
      simp only [Prod.mk.injEq] at hs
      obtain ⟨hl1, hb'⟩ := hs
      subst hb'
      exact ⟨rfl, fun hc => close_clears_hinst b hc⟩
    · rw [if_neg hl] at hs
      simp only [Prod.mk.injEq] at hs
      obtain ⟨hl1, hb'⟩ := hs
      omega

/-- C7 witness: on `c7_w_backend` (failing write, succeeding close) the send
returns a negative count, the backend afterwards is the closed one, and its
handle is null. -/
theorem c7_close_on_error_witness :
    ((modbus_send c7_w_backend true 1).1 < 0) ∧
    ((modbus_send c7_w_backend true 1).2 =
      ((modbus_backend_close (some c7_w_backend)).2).getD c7_w_backend) ∧
    ((modbus_send c7_w_backend true 1).2).hinst = none := by
  have h := c7_close_on_error.2 c7_w_backend true 1
      ((modbus_send c7_w_backend true 1).1) ((modbus_send c7_w_backend true 1).2)
      rfl (by decide)
  exact ⟨by decide, h.1, h.2 (fun h2 hh => by injection hh with e; subst e; rfl)⟩

/-- C8: `modbus_rtu_frame_parse` returns 0 (short frame) for every input
length up to 3, while an input of length 4 passes the minimum-length check
(the frame `[1, 0, 0, 0]` of length 4 reaches function-code dispatch and
fails there with -1, not with the short-frame 0). -/
theorem c8_rtu_min_frame_len :
    (∀ (buf : List Nat) (ty : MbPduType) (len : Int), len ≤ 3 →
        modbus_rtu_frame_parse buf len ty = (0, none)) ∧
    (modbus_rtu_frame_parse [1, 0, 0, 0] 4 MbPduType.req).1 = -1 := by
  constructor
  · intro buf ty len hlen
    have hmin : len < ((MB_RTU_FRM_MIN : Nat) : Int) := by
      unfold MB_RTU_FRM_MIN MB_RTU_SADDR_SIZE MB_RTU_CRC_SIZE MB_PDU_SIZE_MIN
      omega
    simp only [modbus_rtu_frame_parse, if_pos hmin]
  · decide

/-- C8 witness: the short-frame part of the theorem applied at length 3. -/
theorem c8_rtu_min_frame_len_witness :
    ((3 : Int) ≤ 3) ∧ modbus_rtu_frame_parse [9, 9, 9] 3 MbPduType.rsp = (0, none) :=
  ⟨by decide, c8_rtu_min_frame_len.1 [9, 9, 9] MbPduType.rsp 3 (by decide)⟩

/- ---------------------------------------------------------------------
   CRC-16 lemmas: the running CRC stays a uint16, and the classic Modbus
   residue property: folding the CRC over a message followed by its own CRC
   (little endian) yields 0.
   --------------------------------------------------------------------- -/

/-- One CRC bit step stays below 2^16. -/
theorem crcStep_lt (x : Nat) (h : x < 65536) : crcStep x < 65536 := by
  have hdiv : x >>> 1 = x / 2 := by
    rw [Nat.shiftRight_eq_div_pow]
  have hx : x >>> 1 < 65536 := by omega
  unfold crcStep
  split
  · have h16 : (65536 : Nat) = 2 ^ 16 := by norm_num
    rw [h16]
    exact Nat.xor_lt_two_pow (h16 ▸ hx) (by norm_num)
  · exact hx

/-- Eight CRC bit steps stay below 2^16. -/
theorem crcStep8_lt (x : Nat) (h : x < 65536) : crcStep8 x < 65536 :=
  crcStep_lt _ (crcStep_lt _ (crcStep_lt _ (crcStep_lt _
    (crcStep_lt _ (crcStep_lt _ (crcStep_lt _ (crcStep_lt _ h)))))))

/-- Absorbing one byte keeps the CRC below 2^16. -/
theorem crcByteStep_lt (c b : Nat) (h : c < 65536) : crcByteStep c b < 65536 := by
  unfold crcByteStep
  apply crcStep8_lt
  have hb : b % 256 < 65536 := by
    have := Nat.mod_lt b (y := 256) (by norm_num)
    omega
  have h16 : (65536 : Nat) = 2 ^ 16 := by norm_num
  rw [h16]
  exact Nat.xor_lt_two_pow (h16 ▸ h) (h16 ▸ hb)

/-- The CRC fold keeps its accumulator below 2^16. -/
theorem crc_foldl_lt (l : List Nat) : ∀ c, c < 65536 → l.foldl crcByteStep c < 65536 := by
  induction l with
  | nil => intro c h; simpa using h
  | cons a t ih =>
      intro c h
      simpa using ih _ (crcByteStep_lt _ _ h)

/-- The computed CRC is a uint16. -/
theorem modbus_crc_cal_lt (l : List Nat) : modbus_crc_cal l < 65536 :=
  crc_foldl_lt l _ (by norm_num)

/-- Clearing the low byte of `c` by XOR with `c % 256` leaves the high part
shifted into place. -/
theorem xor_low_byte (c : Nat) : c ^^^ (c % 256) = 256 * (c / 256) := by
  have key : c ^^^ (c % 2 ^ 8) = 2 ^ 8 * (c / 2 ^ 8) := by
    apply Nat.eq_of_testBit_eq
    intro i
    rw [Nat.testBit_xor, Nat.testBit_mod_two_pow]
    rcases Nat.lt_or_ge i 8 with hi | hi
    · have h2 : (2 ^ 8 * (c / 2 ^ 8)).testBit i = false := by
        rw [Nat.mul_comm, ← Nat.shiftLeft_eq, Nat.testBit_shiftLeft]
        simp [Nat.not_le.mpr hi]
      rw [h2]
      simp [hi]
    · have hsum : 8 + (i - 8) = i := by omega
      have h2 : (2 ^ 8 * (c / 2 ^ 8)).testBit i = c.testBit i := by
        rw [Nat.mul_comm, ← Nat.shiftLeft_eq, ← Nat.shiftRight_eq_div_pow,
          Nat.testBit_shiftLeft, Nat.testBit_shiftRight, hsum]
        simp [hi]
      rw [h2]
      simp [Nat.not_lt.mpr hi]
  have h256 : (2 : Nat) ^ 8 = 256 := by norm_num
  rw [h256] at key
  exact key

/-- One CRC bit step on an even value is a plain shift. -/
theorem crcStep_even (m : Nat) : crcStep (2 * m) = m := by
  have h2 : (2 * m) >>> 1 = m := by
    rw [Nat.shiftRight_eq_div_pow]
    omega
  unfold crcStep
  rw [if_neg]
  · exact h2
  · omega

/-- Eight unrolled CRC steps on a value with a clear low byte just shift it
down. -/
theorem crcStep8_mul256 (k : Nat) : crcStep8 (256 * k) = k := by
  unfold crcStep8
  rw [show 256 * k = 2 * (128 * k) by ring, crcStep_even,
      show 128 * k = 2 * (64 * k) by ring, crcStep_even,
      show 64 * k = 2 * (32 * k) by ring, crcStep_even,
      show 32 * k = 2 * (16 * k) by ring, crcStep_even,
      show 16 * k = 2 * (8 * k) by ring, crcStep_even,
      show 8 * k = 2 * (4 * k) by ring, crcStep_even,
      show 4 * k = 2 * (2 * k) by ring, crcStep_even,
      show 2 * k = 2 * (1 * k) by ring, crcStep_even]
  exact Nat.one_mul k

/-- The CRC fold distributes over append. -/
theorem modbus_crc_cal_append (l1 l2 : List Nat) :
    modbus_crc_cal (l1 ++ l2) = l2.foldl crcByteStep (modbus_crc_cal l1) := by
  simp [modbus_crc_cal, List.foldl_append]

/-- Residue property: the CRC over a message extended by its own CRC
(low byte first) is 0. -/
theorem crc_append_residue (msg : List Nat) :
    modbus_crc_cal
      (msg ++ [modbus_crc_cal msg % 256, (modbus_crc_cal msg >>> 8) % 256]) = 0 := by
  rw [modbus_crc_cal_append]
  simp only [List.foldl_cons, List.foldl_nil]
  have hlt : modbus_crc_cal msg < 65536 := modbus_crc_cal_lt msg
  have hq : modbus_crc_cal msg / 256 < 256 := by omega
  have hdiv : modbus_crc_cal msg >>> 8 = modbus_crc_cal msg / 256 := by
    rw [Nat.shiftRight_eq_div_pow]
  have e1 : crcByteStep (modbus_crc_cal msg) (modbus_crc_cal msg % 256) =
      modbus_crc_cal msg / 256 := by
    unfold crcByteStep
    rw [Nat.mod_mod_of_dvd _ dvd_rfl, xor_low_byte]
    exact crcStep8_mul256 _
  rw [e1]
  unfold crcByteStep
  rw [hdiv, Nat.mod_mod_of_dvd _ dvd_rfl, Nat.mod_eq_of_lt hq, Nat.xor_self]
  decide

/-- Rebuilding a uint16 from the two bytes its writer produced. -/
theorem u16_roundtrip (v : Nat) (h : v < 65536) :
    modbus_cvt_u16_get ((v >>> 8) % 256) (v % 256) = v := by
  have h1 : v >>> 8 = v / 256 := by
    rw [Nat.shiftRight_eq_div_pow]
  unfold modbus_cvt_u16_get
  rw [h1, Nat.shiftLeft_eq]
  norm_num
  omega

/-- A function code in 128..255 has its high bit set. -/
theorem exceptChk_true_of (fc : Nat) (h1 : 128 ≤ fc) (h2 : fc < 256) :
    MODBUS_FC_EXCEPT_CHK fc = true := by
  unfold MODBUS_FC_EXCEPT_CHK
  have hand : fc &&& 128 = (fc.testBit 7).toNat * 128 := by
    have h := Nat.and_two_pow fc 7
    norm_num at h
    exact h
  have ht : fc.testBit 7 = true := by
    rw [Nat.testBit_to_div_mod]
    simp only [decide_eq_true_eq]
    omega
  rw [hand, ht]
  norm_num

/-- The PDU roundtrip: a valid PDU value of a round-trip-capable shape,
serialized by `modbus_pdu_make` in its direction and parsed back (possibly
with extra bytes appended after the PDU), yields exactly the same value and
the same length. -/
theorem pdu_roundtrip_ext (ty : MbPduType) (pdu : MbPdu) (hv : pduValid ty pdu) :
    ∃ pb, modbus_pdu_make pdu ty = some pb ∧ 2 ≤ pb.length ∧
      ∀ t, modbus_pdu_parse (pb ++ t) ((pb.length : Nat) : Int) ty =
        (((pb.length : Nat) : Int), some pdu) := by
  cases ty with
  | req =>
      cases pdu with
      | rdReq r =>
          obtain ⟨fc, addr, nb⟩ := r
          obtain ⟨hfc, ha, hn⟩ := hv
          rcases hfc with h | h | h | h <;> subst h <;>
            exact ⟨_, rfl,
              by simp [modbus_pdu_rd_req_make, modbus_cvt_u8_put, modbus_cvt_u16_put],
              fun t => by
                simp [modbus_pdu_rd_req_make, modbus_cvt_u8_put, modbus_cvt_u16_put,
                  modbus_pdu_parse, modbus_pdu_req_parse, modbus_pdu_rd_req_parse,
                  u16_roundtrip addr ha, u16_roundtrip nb hn]⟩
      | wrSingle w =>
          obtain ⟨fc, addr, val⟩ := w
          obtain ⟨hfc, ha, hn⟩ := hv
          rcases hfc with h | h <;> subst h <;>
            exact ⟨_, rfl,
              by simp [modbus_pdu_wr_single_make, modbus_cvt_u8_put, modbus_cvt_u16_put],
              fun t => by
                simp [modbus_pdu_wr_single_make, modbus_cvt_u8_put, modbus_cvt_u16_put,
                  modbus_pdu_parse, modbus_pdu_req_parse, modbus_pdu_wr_single_parse,
                  u16_roundtrip addr ha, u16_roundtrip val hn]⟩
      | wrReq w =>
          obtain ⟨fc, addr, nb, dlen, pdata⟩ := w
          obtain ⟨hfc0, ha0, hn0, hd10, hd20, hpl0⟩ := hv
          have hfc : fc = 0x0F ∨ fc = 0x10 := hfc0
          have ha : addr < 65536 := ha0
          have hn : nb < 65536 := hn0
          have hd1 : 1 ≤ dlen := hd10
          have hd2 : dlen < 256 := hd20
          have hpl : pdata.length = dlen := hpl0
          have hdl : dlen % 256 = dlen := Nat.mod_eq_of_lt hd2
          have hfc256 : fc % 256 = fc := by
            rcases hfc with h | h <;> omega
          have hn1 : ¬(fc = 0x01 ∨ fc = 0x02 ∨ fc = 0x03 ∨ fc = 0x04) := by
            rcases hfc with h | h <;> omega
          have hn2 : ¬(fc = 0x05 ∨ fc = 0x06) := by
            rcases hfc with h | h <;> omega
          have htake : List.take dlen pdata = pdata := by
            rw [← hpl]
            exact pdata.take_length
          have hlen : (modbus_pdu_wr_req_make ⟨fc, addr, nb, dlen, pdata⟩).length
              = 6 + dlen := by
            simp [modbus_pdu_wr_req_make, modbus_cvt_u8_put, modbus_cvt_u16_put, htake,
              hpl]
            omega
          refine ⟨modbus_pdu_wr_req_make ⟨fc, addr, nb, dlen, pdata⟩, ?_, ?_, ?_⟩
          · simp [modbus_pdu_make, modbus_pdu_req_make, hfc]
          · rw [hlen]
            omega
          · intro t
            rw [hlen]
            simp [modbus_pdu_wr_req_make, modbus_cvt_u8_put, modbus_cvt_u16_put,
              htake, hdl, hpl, hfc256, hn1, hn2, hfc,
              modbus_pdu_parse, modbus_pdu_req_parse, modbus_pdu_wr_req_parse,
              List.take_left' hpl, u16_roundtrip addr ha, u16_roundtrip nb hn,
              show ¬((6 : Int) + (dlen : Int) < 7) by omega]
      | maskWr m =>
          obtain ⟨fc, addr, va, vo⟩ := m
          obtain ⟨hfc, ha, h1, h2⟩ := hv
          subst hfc
          exact ⟨_, rfl,
            by simp [modbus_pdu_mask_wr_make, modbus_cvt_u8_put, modbus_cvt_u16_put],
            fun t => by
              simp [modbus_pdu_mask_wr_make, modbus_cvt_u8_put, modbus_cvt_u16_put,
                modbus_pdu_parse, modbus_pdu_req_parse, modbus_pdu_mask_wr_parse,
                u16_roundtrip addr ha, u16_roundtrip va h1, u16_roundtrip vo h2]⟩
      | wrRdReq w =>
          obtain ⟨fc, ra, rn, wa, wn, dlen, pdata⟩ := w
          obtain ⟨hfc0, h10, h20, h30, h40, hd10, hd20, hpl0⟩ := hv
          have hfc : fc = 0x17 := hfc0
          have h1 : ra < 65536 := h10
          have h2 : rn < 65536 := h20
          have h3 : wa < 65536 := h30
          have h4 : wn < 65536 := h40
          have hd1 : 1 ≤ dlen := hd10
          have hd2 : dlen < 256 := hd20
          have hpl : pdata.length = dlen := hpl0
          have hdl : dlen % 256 = dlen := Nat.mod_eq_of_lt hd2
          have htake : List.take dlen pdata = pdata := by
            rw [← hpl]
            exact pdata.take_length
          subst hfc
          have hlen : (modbus_pdu_wr_rd_req_make ⟨0x17, ra, rn, wa, wn, dlen, pdata⟩).length
              = 10 + dlen := by
            simp [modbus_pdu_wr_rd_req_make, modbus_cvt_u8_put, modbus_cvt_u16_put,
              htake, hpl]
            omega
          refine ⟨_, rfl, ?_, ?_⟩
          · rw [hlen]
            omega
          · intro t
            rw [hlen]
            simp [modbus_pdu_wr_rd_req_make, modbus_cvt_u8_put, modbus_cvt_u16_put,
              htake, hdl, hpl, modbus_pdu_parse, modbus_pdu_req_parse,
              modbus_pdu_wr_rd_req_parse, List.take_left' hpl,
              u16_roundtrip ra h1, u16_roundtrip rn h2,
              u16_roundtrip wa h3, u16_roundtrip wn h4,
              show ¬((10 : Int) + (dlen : Int) < 11) by omega]
      | rdRsp r => exact absurd hv (by simp [pduValid])
      | wrRsp w => exact absurd hv (by simp [pduValid])
      | exc e => exact absurd hv (by simp [pduValid])
  | rsp =>
      cases pdu with
      | exc e =>
          obtain ⟨fc, ec⟩ := e
          obtain ⟨h1, h2, h3⟩ := hv
          have hex : MODBUS_FC_EXCEPT_CHK fc = true := exceptChk_true_of fc h1 h2
          have hfc : fc % 256 = fc := Nat.mod_eq_of_lt h2
          have hec : ec % 256 = ec := Nat.mod_eq_of_lt h3
          refine ⟨modbus_pdu_except_make ⟨fc, ec⟩, ?_, ?_, ?_⟩
          · simp [modbus_pdu_make, mb_pdu_rsp_make, hex]
          · simp [modbus_pdu_except_make, modbus_cvt_u8_put]
          · intro t
            simp [modbus_pdu_except_make, modbus_cvt_u8_put, hfc, hec,
              modbus_pdu_parse, modbus_pdu_rsp_parse, modbus_pdu_except_parse, hex]
      | rdRsp r =>
          obtain ⟨fc, dlen, pdata⟩ := r
          obtain ⟨hfc0, hd10, hd20, hpl0⟩ := hv
          have hfc : fc = 0x01 ∨ fc = 0x02 ∨ fc = 0x03 ∨ fc = 0x04 ∨ fc = 0x17 := hfc0
          have hd1 : 1 ≤ dlen := hd10
          have hd2 : dlen < 256 := hd20
          have hpl : pdata.length = dlen := hpl0
          have hdl : dlen % 256 = dlen := Nat.mod_eq_of_lt hd2
          have hfc256 : fc % 256 = fc := by
            rcases hfc with h | h | h | h | h <;> omega
          have hexf : MODBUS_FC_EXCEPT_CHK fc = false := by
            rcases hfc with h | h | h | h | h <;> subst h <;> rfl
          have htake : List.take dlen pdata = pdata := by
            rw [← hpl]
            exact pdata.take_length
          have hlen : (modbus_pdu_rd_rsp_make ⟨fc, dlen, pdata⟩).length = 2 + dlen := by
            simp [modbus_pdu_rd_rsp_make, modbus_cvt_u8_put, htake, hpl]
            omega
          refine ⟨modbus_pdu_rd_rsp_make ⟨fc, dlen, pdata⟩, ?_, ?_, ?_⟩
          · simp [modbus_pdu_make, mb_pdu_rsp_make, hexf, hfc]
          · rw [hlen]
            omega
          · intro t
            rw [hlen]
            simp [modbus_pdu_rd_rsp_make, modbus_cvt_u8_put, htake, hdl, hpl, hfc256,
              hexf, hfc, modbus_pdu_parse, modbus_pdu_rsp_parse, modbus_pdu_rd_rsp_parse,
              List.take_left' hpl,
              show ¬((2 : Int) + (dlen : Int) < 3) by omega]
      | wrSingle w =>
          obtain ⟨fc, addr, val⟩ := w
          obtain ⟨hfc0, ha0, hn0⟩ := hv
          have hfc : fc = 0x05 ∨ fc = 0x06 := hfc0
          have ha : addr < 65536 := ha0
          have hn : val < 65536 := hn0
          have hfc256 : fc % 256 = fc := by
            rcases hfc with h | h <;> omega
          have hexf : MODBUS_FC_EXCEPT_CHK fc = false := by
            rcases hfc with h | h <;> subst h <;> rfl
          have hn1 : ¬(fc = 0x01 ∨ fc = 0x02 ∨ fc = 0x03 ∨ fc = 0x04 ∨ fc = 0x17) := by
            rcases hfc with h | h <;> omega
          refine ⟨modbus_pdu_wr_single_make ⟨fc, addr, val⟩, ?_, ?_, ?_⟩
          · simp [modbus_pdu_make, mb_pdu_rsp_make, hexf, hfc]
          · simp [modbus_pdu_wr_single_make, modbus_cvt_u8_put, modbus_cvt_u16_put]
          · intro t
            simp [modbus_pdu_wr_single_make, modbus_cvt_u8_put, modbus_cvt_u16_put,
              hfc256, hexf, hn1, hfc, modbus_pdu_parse, modbus_pdu_rsp_parse,
              modbus_pdu_wr_single_parse,
              u16_roundtrip addr ha, u16_roundtrip val hn]
      | wrRsp w =>
          obtain ⟨fc, addr, nb⟩ := w
          obtain ⟨hfc0, ha0, hn0⟩ := hv
          have hfc : fc = 0x0F ∨ fc = 0x10 := hfc0
          have ha : addr < 65536 := ha0
          have hn : nb < 65536 := hn0
          have hfc256 : fc % 256 = fc := by
            rcases hfc with h | h <;> omega
          have hexf : MODBUS_FC_EXCEPT_CHK fc = false := by
            rcases hfc with h | h <;> subst h <;> rfl
          have hn1 : ¬(fc = 0x01 ∨ fc = 0x02 ∨ fc = 0x03 ∨ fc = 0x04 ∨ fc = 0x17) := by
            rcases hfc with h | h <;> omega
          have hn2 : ¬(fc = 0x05 ∨ fc = 0x06) := by
            rcases hfc with h | h <;> omega
          refine ⟨modbus_pdu_wr_rsp_make ⟨fc, addr, nb⟩, ?_, ?_, ?_⟩
          · simp [modbus_pdu_make, mb_pdu_rsp_make, hexf, hfc]
          · simp [modbus_pdu_wr_rsp_make, modbus_cvt_u8_put, modbus_cvt_u16_put]
          · intro t
            simp [modbus_pdu_wr_rsp_make, modbus_cvt_u8_put, modbus_cvt_u16_put,
              hfc256, hexf, hn1, hn2, hfc, modbus_pdu_parse, modbus_pdu_rsp_parse,
              modbus_pdu_wr_rsp_parse,
              u16_roundtrip addr ha, u16_roundtrip nb hn]
      | maskWr m =>
          obtain ⟨fc, addr, va, vo⟩ := m
          obtain ⟨hfc0, ha0, h10, h20⟩ := hv
          have ha : addr < 65536 := ha0
          have h1 : va < 65536 := h10
          have h2 : vo < 65536 := h20
          have hfc : fc = 0x16 := hfc0
          subst hfc
          refine ⟨modbus_pdu_mask_wr_make ⟨0x16, addr, va, vo⟩, ?_, ?_, ?_⟩
          · simp [modbus_pdu_make, mb_pdu_rsp_make, MODBUS_FC_EXCEPT_CHK]
            decide
          · simp [modbus_pdu_mask_wr_make, modbus_cvt_u8_put, modbus_cvt_u16_put]
          · intro t
            simp [modbus_pdu_mask_wr_make, modbus_cvt_u8_put, modbus_cvt_u16_put,
              modbus_pdu_parse, modbus_pdu_rsp_parse, modbus_pdu_mask_wr_parse,
              MODBUS_FC_EXCEPT_CHK,
              u16_roundtrip addr ha, u16_roundtrip va h1, u16_roundtrip vo h2]
            decide
      | rdReq r => exact absurd hv (by simp [pduValid])
      | wrReq w => exact absurd hv (by simp [pduValid])
      | wrRdReq w => exact absurd hv (by simp [pduValid])

/-- C4: for every valid PDU value of a round-trip-capable shape and matching
direction, parsing the bytes produced by `modbus_pdu_make` yields a PDU
equal to the original (payloads equal as byte sequences) and returns the
same length that make returned. -/
theorem c4_pdu_roundtrip (ty : MbPduType) (pdu : MbPdu) (hv : pduValid ty pdu) :
    ∃ pb, modbus_pdu_make pdu ty = some pb ∧
      modbus_pdu_parse pb ((pb.length : Nat) : Int) ty =
        (((pb.length : Nat) : Int), some pdu) := by
  obtain ⟨pb, h1, _, h3⟩ := pdu_roundtrip_ext ty pdu hv
  refine ⟨pb, h1, ?_⟩
  have h := h3 []
  simpa using h

/-- C4 witness: the roundtrip at the concrete request PDU read-holding
fc 0x03, addr 0x6B, count 3. -/
theorem c4_pdu_roundtrip_witness :
    pduValid MbPduType.req (MbPdu.rdReq ⟨0x03, 0x6B, 3⟩) ∧
    ∃ pb, modbus_pdu_make (MbPdu.rdReq ⟨0x03, 0x6B, 3⟩) MbPduType.req = some pb ∧
      modbus_pdu_parse pb ((pb.length : Nat) : Int) MbPduType.req =
        (((pb.length : Nat) : Int), some (MbPdu.rdReq ⟨0x03, 0x6B, 3⟩)) :=
  ⟨by simp [pduValid], c4_pdu_roundtrip MbPduType.req _ (by simp [pduValid])⟩

/-- C3: for every slave address and valid PDU of a supported shape, the RTU
frame built by `modbus_rtu_frame_make` passes the CRC check (CRC over the
whole frame is 0) and `modbus_rtu_frame_parse` accepts it, returning
exactly the PDU length that make consumed. -/
theorem c3_rtu_roundtrip (saddr : Nat) (pdu : MbPdu) (ty : MbPduType)
    (hs : saddr < 256) (hv : pduValid ty pdu) :
    ∃ pb fr, modbus_pdu_make pdu ty = some pb ∧
      modbus_rtu_frame_make saddr pdu ty = some fr ∧
      modbus_crc_cal fr = 0 ∧
      modbus_rtu_frame_parse fr ((fr.length : Nat) : Int) ty =
        (((pb.length : Nat) : Int), some (saddr, pdu)) := by
  obtain ⟨pb, hmk, hlen2, hparse⟩ := pdu_roundtrip_ext ty pdu hv
  have hsa : saddr % 256 = saddr := Nat.mod_eq_of_lt hs
  have hfr : modbus_rtu_frame_make saddr pdu ty =
      some ((modbus_cvt_u8_put saddr ++ pb) ++
        [modbus_crc_cal (modbus_cvt_u8_put saddr ++ pb) % 256,
         (modbus_crc_cal (modbus_cvt_u8_put saddr ++ pb) >>> 8) % 256]) := by
    simp [modbus_rtu_frame_make, hmk]
  refine ⟨pb, _, hmk, hfr, crc_append_residue _, ?_⟩
  have hfrlen : ((modbus_cvt_u8_put saddr ++ pb) ++
      [modbus_crc_cal (modbus_cvt_u8_put saddr ++ pb) % 256,
       (modbus_crc_cal (modbus_cvt_u8_put saddr ++ pb) >>> 8) % 256]).length =
      pb.length + 3 := by
    simp [modbus_cvt_u8_put]
  rw [hfrlen]
  have hmin : ¬(((pb.length + 3 : Nat) : Int) < ((MB_RTU_FRM_MIN : Nat) : Int)) := by
    unfold MB_RTU_FRM_MIN MB_RTU_SADDR_SIZE MB_RTU_CRC_SIZE MB_PDU_SIZE_MIN
    push_cast
    omega
  have hrem : ((pb.length + 3 : Nat) : Int) -
      ((MB_RTU_SADDR_SIZE + MB_RTU_CRC_SIZE : Nat) : Int) = ((pb.length : Nat) : Int) := by
    unfold MB_RTU_SADDR_SIZE MB_RTU_CRC_SIZE
    push_cast
    omega
  have hdrop : ((modbus_cvt_u8_put saddr ++ pb) ++
      [modbus_crc_cal (modbus_cvt_u8_put saddr ++ pb) % 256,
       (modbus_crc_cal (modbus_cvt_u8_put saddr ++ pb) >>> 8) % 256]).drop 1 =
      pb ++ [modbus_crc_cal (modbus_cvt_u8_put saddr ++ pb) % 256,
             (modbus_crc_cal (modbus_cvt_u8_put saddr ++ pb) >>> 8) % 256] := by
    simp [modbus_cvt_u8_put]
  have hget : ((modbus_cvt_u8_put saddr ++ pb) ++
      [modbus_crc_cal (modbus_cvt_u8_put saddr ++ pb) % 256,
       (modbus_crc_cal (modbus_cvt_u8_put saddr ++ pb) >>> 8) % 256]).getD 0 0 = saddr := by
    simp [modbus_cvt_u8_put, hsa]
  have hpos : ¬(((pb.length : Nat) : Int) ≤ 0) := by
    omega
  have htn : (((pb.length : Nat) : Int) +
      ((MB_RTU_SADDR_SIZE + MB_RTU_CRC_SIZE : Nat) : Int)).toNat = pb.length + 3 := by
    unfold MB_RTU_SADDR_SIZE MB_RTU_CRC_SIZE
    push_cast
    omega
  have htake : (((modbus_cvt_u8_put saddr ++ pb) ++
      [modbus_crc_cal (modbus_cvt_u8_put saddr ++ pb) % 256,
       (modbus_crc_cal (modbus_cvt_u8_put saddr ++ pb) >>> 8) % 256]).take (pb.length + 3)) =
      ((modbus_cvt_u8_put saddr ++ pb) ++
        [modbus_crc_cal (modbus_cvt_u8_put saddr ++ pb) % 256,
         (modbus_crc_cal (modbus_cvt_u8_put saddr ++ pb) >>> 8) % 256]) :=
    List.take_of_length_le (by rw [hfrlen])
  simp only [modbus_rtu_frame_parse, if_neg hmin, hrem, hdrop, hget,
    hparse [modbus_crc_cal (modbus_cvt_u8_put saddr ++ pb) % 256,
            (modbus_crc_cal (modbus_cvt_u8_put saddr ++ pb) >>> 8) % 256]]
  have hres := crc_append_residue (modbus_cvt_u8_put saddr ++ pb)
  rw [List.append_assoc] at hres
  simp only [htn, htake, if_neg hpos]
  simp [hres]

/-- C3 witness: the RTU roundtrip at slave address 0x11 and the concrete
read-holding request PDU. -/
theorem c3_rtu_roundtrip_witness :
    ((0x11 : Nat) < 256 ∧ pduValid MbPduType.req (MbPdu.rdReq ⟨0x03, 0x6B, 3⟩)) ∧
    (∃ pb fr, modbus_pdu_make (MbPdu.rdReq ⟨0x03, 0x6B, 3⟩) MbPduType.req = some pb ∧
      modbus_rtu_frame_make 0x11 (MbPdu.rdReq ⟨0x03, 0x6B, 3⟩) MbPduType.req = some fr ∧
      modbus_crc_cal fr = 0 ∧
      modbus_rtu_frame_parse fr ((fr.length : Nat) : Int) MbPduType.req =
        (((pb.length : Nat) : Int), some (0x11, MbPdu.rdReq ⟨0x03, 0x6B, 3⟩))) :=
  ⟨⟨by decide, by simp [pduValid]⟩,
   c3_rtu_roundtrip 0x11 _ MbPduType.req (by decide) (by simp [pduValid])⟩

/-- C6: on the request path the dispatcher rejects every unsupported first
byte with -1, and for a supported function code with a length below its
shape's minimum (5 for reads and single writes, 7 for write-multiple and
mask-write, 11 for read-write) the parse returns 0. -/
theorem c6_req_parse_dispatch (b : Nat) (rest : List Nat) (len : Int) (hb : b < 256) :
    (¬(b = 0x01 ∨ b = 0x02 ∨ b = 0x03 ∨ b = 0x04 ∨ b = 0x05 ∨ b = 0x06 ∨
        b = 0x0F ∨ b = 0x10 ∨ b = 0x16 ∨ b = 0x17) →
      (modbus_pdu_req_parse (b :: rest) len).1 = -1) ∧
    ((b = 0x01 ∨ b = 0x02 ∨ b = 0x03 ∨ b = 0x04 ∨ b = 0x05 ∨ b = 0x06) → len < 5 →
      (modbus_pdu_req_parse (b :: rest) len).1 = 0) ∧
    ((b = 0x0F ∨ b = 0x10 ∨ b = 0x16) → len < 7 →
      (modbus_pdu_req_parse (b :: rest) len).1 = 0) ∧
    (b = 0x17 → len < 11 →
      (modbus_pdu_req_parse (b :: rest) len).1 = 0) := by
  refine ⟨?_, ?_, ?_, ?_⟩
  · intro hmem
    have h1 : ¬(b = 1 ∨ b = 2 ∨ b = 3 ∨ b = 4) := by tauto
    have h2 : ¬(b = 5 ∨ b = 6) := by tauto
    have h3 : ¬(b = 15 ∨ b = 16) := by tauto
    have h4 : ¬(b = 22) := by tauto
    have h5 : ¬(b = 23) := by tauto
    simp [modbus_pdu_req_parse, h1, h2, h3, h4, h5]
  · intro hmem hlen
    rcases hmem with h | h | h | h | h | h <;> subst h <;>
      simp [modbus_pdu_req_parse, modbus_pdu_rd_req_parse, modbus_pdu_wr_single_parse,
        hlen]
  · intro hmem hlen
    rcases hmem with h | h | h <;> subst h <;>
      simp [modbus_pdu_req_parse, modbus_pdu_wr_req_parse, modbus_pdu_mask_wr_parse,
        hlen]
  · intro h hlen
    subst h
    simp [modbus_pdu_req_parse, modbus_pdu_wr_rd_req_parse, hlen]

/-- C6 witness: the theorem at first byte 0x07 (unsupported: returns -1 for
any length) and, through its other conjuncts, at the short lengths. -/
theorem c6_req_parse_dispatch_witness :
    ((0x07 : Nat) < 256) ∧
    ((¬((0x07 : Nat) = 0x01 ∨ (0x07 : Nat) = 0x02 ∨ (0x07 : Nat) = 0x03 ∨
        (0x07 : Nat) = 0x04 ∨ (0x07 : Nat) = 0x05 ∨ (0x07 : Nat) = 0x06 ∨
        (0x07 : Nat) = 0x0F ∨ (0x07 : Nat) = 0x10 ∨ (0x07 : Nat) = 0x16 ∨
        (0x07 : Nat) = 0x17) →
      (modbus_pdu_req_parse (0x07 :: [0, 0, 0, 0]) 5).1 = -1) ∧
    (((0x07 : Nat) = 0x01 ∨ (0x07 : Nat) = 0x02 ∨ (0x07 : Nat) = 0x03 ∨
        (0x07 : Nat) = 0x04 ∨ (0x07 : Nat) = 0x05 ∨ (0x07 : Nat) = 0x06) → (5 : Int) < 5 →
      (modbus_pdu_req_parse (0x07 :: [0, 0, 0, 0]) 5).1 = 0) ∧
    (((0x07 : Nat) = 0x0F ∨ (0x07 : Nat) = 0x10 ∨ (0x07 : Nat) = 0x16) → (5 : Int) < 7 →
      (modbus_pdu_req_parse (0x07 :: [0, 0, 0, 0]) 5).1 = 0) ∧
    ((0x07 : Nat) = 0x17 → (5 : Int) < 11 →
      (modbus_pdu_req_parse (0x07 :: [0, 0, 0, 0]) 5).1 = 0)) :=
  ⟨by decide, c6_req_parse_dispatch 0x07 [0, 0, 0, 0] 5 (by decide)⟩

/-- Helper: the read loop and its exit label agree, case by case.  For any
start state with a non-negative cursor: the loop yields `none` exactly on
oracle starvation and `some (-1)` exactly on an inner-read error; an
ack-timeout exit yields 0, a byte-timeout exit a positive count, a full exit
at least `bufsize`; results never drop below the starting cursor; within the
read capacity contract the result never exceeds `bufsize`. -/
theorem read_loop_cases (bufsize byteTmo ackTmo : Int) :
    ∀ (evs : List ReadEvent) (pos told : Int), 0 ≤ pos →
      ((modbus_backend_read_loop bufsize byteTmo ackTmo evs pos told = none ↔
        modbus_backend_read_stop bufsize byteTmo ackTmo evs pos told = ReadStop.starve) ∧
       (modbus_backend_read_loop bufsize byteTmo ackTmo evs pos told = some (-1) ↔
        modbus_backend_read_stop bufsize byteTmo ackTmo evs pos told = ReadStop.err) ∧
       (modbus_backend_read_stop bufsize byteTmo ackTmo evs pos told = ReadStop.ackTmo →
        modbus_backend_read_loop bufsize byteTmo ackTmo evs pos told = some 0) ∧
       (modbus_backend_read_stop bufsize byteTmo ackTmo evs pos told = ReadStop.byteTmo →
        ∃ n, modbus_backend_read_loop bufsize byteTmo ackTmo evs pos told = some n ∧
          0 < n) ∧
       (modbus_backend_read_stop bufsize byteTmo ackTmo evs pos told = ReadStop.full →
        ∃ n, modbus_backend_read_loop bufsize byteTmo ackTmo evs pos told = some n ∧
          bufsize ≤ n) ∧
       (∀ n, modbus_backend_read_loop bufsize byteTmo ackTmo evs pos told = some n →
          n ≠ -1 → pos ≤ n) ∧
       (respectsCap bufsize evs pos = true → pos ≤ bufsize →
        ∀ n, modbus_backend_read_loop bufsize byteTmo ackTmo evs pos told = some n →
          n ≠ -1 → n ≤ bufsize)) := by
  intro evs
  induction evs with
  | nil =>
      intro pos told hpos
      by_cases hb : bufsize ≤ pos
      · have hL : modbus_backend_read_loop bufsize byteTmo ackTmo [] pos told = some pos := by
          simp [modbus_backend_read_loop, hb]
        have hS : modbus_backend_read_stop bufsize byteTmo ackTmo [] pos told =
            ReadStop.full := by
          simp [modbus_backend_read_stop, hb]
        rw [hL, hS]
        refine ⟨by simp, by simp; omega, by simp, by simp, ?_, ?_, ?_⟩
        · intro _
          exact ⟨pos, rfl, hb⟩
        · intro n h h'
          injection h with h0
          omega
        · intro hcap hle n h h'
          injection h with h0
          omega
      · have hL : modbus_backend_read_loop bufsize byteTmo ackTmo [] pos told = none := by
          simp [modbus_backend_read_loop, hb]
        have hS : modbus_backend_read_stop bufsize byteTmo ackTmo [] pos told =
            ReadStop.starve := by
          simp [modbus_backend_read_stop, hb]
        rw [hL, hS]
        refine ⟨by simp, by simp, by simp, by simp, by simp, ?_, ?_⟩
        · intro n h
          exact absurd h (by simp)
        · intro hcap hle n h
          exact absurd h (by simp)
  | cons e es ih =>
      intro pos told hpos
      by_cases hb : bufsize ≤ pos
      · have hL : modbus_backend_read_loop bufsize byteTmo ackTmo (e :: es) pos told =
            some pos := by
          simp [modbus_backend_read_loop, hb]
        have hS : modbus_backend_read_stop bufsize byteTmo ackTmo (e :: es) pos told =
            ReadStop.full := by
          simp [modbus_backend_read_stop, hb]
        rw [hL, hS]
        refine ⟨by simp, by simp; omega, by simp, by simp, ?_, ?_, ?_⟩
        · intro _
          exact ⟨pos, rfl, hb⟩
        · intro n h h'
          injection h with h0
          omega
        · intro hcap hle n h h'
          injection h with h0
          omega
      · by_cases he : e.len < 0
        · have hL : modbus_backend_read_loop bufsize byteTmo ackTmo (e :: es) pos told =
              some (-1) := by
            simp [modbus_backend_read_loop, hb, he]
          have hS : modbus_backend_read_stop bufsize byteTmo ackTmo (e :: es) pos told =
              ReadStop.err := by
            simp [modbus_backend_read_stop, hb, he]
          rw [hL, hS]
          refine ⟨by simp, by simp, by simp, by simp, by simp, ?_, ?_⟩
          · intro n h h'
            injection h with h0
            omega
          · intro hcap hle n h h'
            injection h with h0
            omega
        · by_cases hp : 0 < e.len
          · have hL : modbus_backend_read_loop bufsize byteTmo ackTmo (e :: es) pos told =
                modbus_backend_read_loop bufsize byteTmo ackTmo es (pos + e.len) e.now := by
              simp [modbus_backend_read_loop, hb, he, hp]
            have hS : modbus_backend_read_stop bufsize byteTmo ackTmo (e :: es) pos told =
                modbus_backend_read_stop bufsize byteTmo ackTmo es (pos + e.len) e.now := by
              simp [modbus_backend_read_stop, hb, he, hp]
            rw [hL, hS]
            obtain ⟨ih1, ih2, ih3, ih4, ih5, ih6, ih7⟩ := ih (pos + e.len) e.now (by omega)
            refine ⟨ih1, ih2, ih3, ih4, ih5, ?_, ?_⟩
            · intro n h h'
              have := ih6 n h h'
              omega
            · intro hcap hle n h h'
              simp only [respectsCap, hp, if_true, Bool.and_eq_true, decide_eq_true_eq,
                if_pos] at hcap
              exact ih7 hcap.2 (by omega) n h h'
          · by_cases hpz : pos ≠ 0
            · by_cases ht : byteTmo < e.now - told
              · have hL : modbus_backend_read_loop bufsize byteTmo ackTmo (e :: es) pos told =
                    some pos := by
                  simp [modbus_backend_read_loop, hb, he, hp, hpz, ht]
                have hS : modbus_backend_read_stop bufsize byteTmo ackTmo (e :: es) pos told =
                    ReadStop.byteTmo := by
                  simp [modbus_backend_read_stop, hb, he, hp, hpz, ht]
                rw [hL, hS]
                refine ⟨by simp, by simp; omega, by simp, ?_, by simp, ?_, ?_⟩
                · intro _
                  exact ⟨pos, rfl, by omega⟩
                · intro n h h'
                  injection h with h0
                  omega
                · intro hcap hle n h h'
                  injection h with h0
                  omega
              · have hL : modbus_backend_read_loop bufsize byteTmo ackTmo (e :: es) pos told =
                    modbus_backend_read_loop bufsize byteTmo ackTmo es pos told := by
                  simp [modbus_backend_read_loop, hb, he, hp, hpz, ht]
                have hS : modbus_backend_read_stop bufsize byteTmo ackTmo (e :: es) pos told =
                    modbus_backend_read_stop bufsize byteTmo ackTmo es pos told := by
                  simp [modbus_backend_read_stop, hb, he, hp, hpz, ht]
                rw [hL, hS]
                obtain ⟨ih1, ih2, ih3, ih4, ih5, ih6, ih7⟩ := ih pos told hpos
                refine ⟨ih1, ih2, ih3, ih4, ih5, ih6, ?_⟩
                intro hcap hle n h h'
                simp only [respectsCap, hp, Bool.and_eq_true, decide_eq_true_eq,
                  if_neg] at hcap
                exact ih7 hcap.2 hle n h h'
            · by_cases ht : ackTmo < e.now - told
              · have hp0 : pos = 0 := by omega
                have hL : modbus_backend_read_loop bufsize byteTmo ackTmo (e :: es) pos told =
                    some pos := by
                  simp [modbus_backend_read_loop, hb, he, hp, hpz, ht]
                have hS : modbus_backend_read_stop bufsize byteTmo ackTmo (e :: es) pos told =
                    ReadStop.ackTmo := by
                  simp [modbus_backend_read_stop, hb, he, hp, hpz, ht]
                rw [hL, hS]
                refine ⟨by simp, by simp; omega, ?_, by simp, by simp, ?_, ?_⟩
                · intro _
                  rw [hp0]
                · intro n h h'
                  injection h with h0
                  omega
                · intro hcap hle n h h'
                  injection h with h0
                  omega
              · have hL : modbus_backend_read_loop bufsize byteTmo ackTmo (e :: es) pos told =
                    modbus_backend_read_loop bufsize byteTmo ackTmo es pos told := by
                  simp [modbus_backend_read_loop, hb, he, hp, hpz, ht]
                have hS : modbus_backend_read_stop bufsize byteTmo ackTmo (e :: es) pos told =
                    modbus_backend_read_stop bufsize byteTmo ackTmo es pos told := by
                  simp [modbus_backend_read_stop, hb, he, hp, hpz, ht]
                rw [hL, hS]
                obtain ⟨ih1, ih2, ih3, ih4, ih5, ih6, ih7⟩ := ih pos told hpos
                refine ⟨ih1, ih2, ih3, ih4, ih5, ih6, ?_⟩
                intro hcap hle n h h'
                simp only [respectsCap, hp, Bool.and_eq_true, decide_eq_true_eq,
                  if_neg] at hcap
                exact ih7 hcap.2 hle n h h'

/-- C5: `modbus_backend_read` returns -1 exactly when the backend pointer is
null, the buffer invalid or the size non-positive, the backend is not open,
or the inner read reports an error; otherwise it returns a count n with
0 <= n <= bufsize (under the read capacity contract), where n = 0 happens
only through the response-timeout exit (no byte arrived) and n > 0 only
because the buffer filled or the inter-byte timeout expired after the last
byte. -/
theorem c5_backend_read_spec (b : mb_backend_t) (bufValid : Bool) (bufsize : Int)
    (evs : List ReadEvent) (t0 : Int)
    (hcap : respectsCap bufsize evs 0 = true) :
    (modbus_backend_read none bufValid bufsize evs t0 = some (-1)) ∧
    (modbus_backend_read (some b) bufValid bufsize evs t0 = some (-1) ↔
      (bufValid = false ∨ bufsize ≤ 0 ∨ b.hinst = none ∨
       modbus_backend_read_stop bufsize b.byte_tmo_ms b.ack_tmo_ms evs 0 t0 =
         ReadStop.err)) ∧
    (∀ n, modbus_backend_read (some b) bufValid bufsize evs t0 = some n → n ≠ -1 →
      0 ≤ n ∧ n ≤ bufsize ∧
      (n = 0 →
        modbus_backend_read_stop bufsize b.byte_tmo_ms b.ack_tmo_ms evs 0 t0 =
          ReadStop.ackTmo) ∧
      (0 < n →
        modbus_backend_read_stop bufsize b.byte_tmo_ms b.ack_tmo_ms evs 0 t0 =
          ReadStop.full ∨
        modbus_backend_read_stop bufsize b.byte_tmo_ms b.ack_tmo_ms evs 0 t0 =
          ReadStop.byteTmo)) := by
  obtain ⟨L1, L2, L3, L4, L5, L6, L7⟩ :=
    read_loop_cases bufsize b.byte_tmo_ms b.ack_tmo_ms evs 0 t0 (le_refl 0)
  refine ⟨rfl, ?_, ?_⟩
  · by_cases h1 : bufValid = false ∨ bufsize ≤ 0
    · constructor
      · intro _
        rcases h1 with h | h
        · exact Or.inl h
        · exact Or.inr (Or.inl h)
      · intro _
        simp [modbus_backend_read, h1]
    · by_cases h2 : b.hinst.isNone
      · have h2' : b.hinst = none := by
          simpa [Option.isNone_iff_eq_none] using h2
        constructor
        · intro _
          exact Or.inr (Or.inr (Or.inl h2'))
        · intro _
          simp [modbus_backend_read, h1, h2]
      · have h2' : b.hinst ≠ none := by
          simpa [Option.isNone_iff_eq_none] using h2
        have hr : modbus_backend_read (some b) bufValid bufsize evs t0 =
            modbus_backend_read_loop bufsize b.byte_tmo_ms b.ack_tmo_ms evs 0 t0 := by
          simp [modbus_backend_read, h1, h2]
        rw [hr]
        constructor
        · intro h
          exact Or.inr (Or.inr (Or.inr (L2.mp h)))
        · intro h
          rcases h with h | h | h | h
          · exact absurd (Or.inl h) h1
          · exact absurd (Or.inr h) h1
          · exact absurd h h2'
          · exact L2.mpr h
  · intro n hn hne
    by_cases h1 : bufValid = false ∨ bufsize ≤ 0
    · rw [show modbus_backend_read (some b) bufValid bufsize evs t0 = some (-1) by
        simp [modbus_backend_read, h1]] at hn
      injection hn with h0
      exact absurd h0.symm hne
    · by_cases h2 : b.hinst.isNone
      · rw [show modbus_backend_read (some b) bufValid bufsize evs t0 = some (-1) by
          simp [modbus_backend_read, h1, h2]] at hn
        injection hn with h0
        exact absurd h0.symm hne
      · have hr : modbus_backend_read (some b) bufValid bufsize evs t0 =
            modbus_backend_read_loop bufsize b.byte_tmo_ms b.ack_tmo_ms evs 0 t0 := by
          simp [modbus_backend_read, h1, h2]
        rw [hr] at hn
        have hb0 : 0 < bufsize := by
          rcases not_or.mp h1 with ⟨_, h⟩
          omega
        have hle : (0 : Int) ≤ n := L6 n hn hne
        have hub : n ≤ bufsize := L7 hcap (by omega) n hn hne
        refine ⟨hle, hub, ?_, ?_⟩
        · intro hn0
          subst hn0
          cases hstop : modbus_backend_read_stop bufsize b.byte_tmo_ms b.ack_tmo_ms
              evs 0 t0 with
          | full =>
              obtain ⟨m, hm, hbm⟩ := L5 hstop
              rw [hn] at hm
              injection hm with h0
              omega
          | err =>
              have h := L2.mpr hstop
              rw [hn] at h
              injection h with h0
              omega
          | byteTmo =>
              obtain ⟨m, hm, hbm⟩ := L4 hstop
              rw [hn] at hm
              injection hm with h0
              omega
          | ackTmo => rfl
          | starve =>
              have h := L1.mpr hstop
              rw [hn] at h
              exact absurd h (by simp)
        · intro hn0
          cases hstop : modbus_backend_read_stop bufsize b.byte_tmo_ms b.ack_tmo_ms
              evs 0 t0 with
          | full => exact Or.inl rfl
          | byteTmo => exact Or.inr rfl
          | err =>
              have h := L2.mpr hstop
              rw [hn] at h
              injection h with h0
              omega
          | ackTmo =>
              have h := L3 hstop
              rw [hn] at h
              injection h with h0
              omega
          | starve =>
              have h := L1.mpr hstop
              rw [hn] at h
              exact absurd h (by simp)

/-- C5 witness: on the concrete open backend `c5_backend` (timeouts 300/32)
with one empty poll at 301 ms, the spec theorem applies; in particular the
read returns 0 through the response-timeout exit. -/
theorem c5_backend_read_spec_witness :
    (respectsCap 8 [⟨0, 301⟩] 0 = true) ∧
    ((modbus_backend_read none true 8 [⟨0, 301⟩] 0 = some (-1)) ∧
     (modbus_backend_read (some c5_backend) true 8 [⟨0, 301⟩] 0 = some (-1) ↔
       (true = false ∨ (8 : Int) ≤ 0 ∨ c5_backend.hinst = none ∨
        modbus_backend_read_stop 8 c5_backend.byte_tmo_ms c5_backend.ack_tmo_ms
          [⟨0, 301⟩] 0 0 = ReadStop.err)) ∧
     (∀ n, modbus_backend_read (some c5_backend) true 8 [⟨0, 301⟩] 0 = some n → n ≠ -1 →
       0 ≤ n ∧ n ≤ 8 ∧
       (n = 0 →
         modbus_backend_read_stop 8 c5_backend.byte_tmo_ms c5_backend.ack_tmo_ms
           [⟨0, 301⟩] 0 0 = ReadStop.ackTmo) ∧
       (0 < n →
         modbus_backend_read_stop 8 c5_backend.byte_tmo_ms c5_backend.ack_tmo_ms
           [⟨0, 301⟩] 0 0 = ReadStop.full ∨
         modbus_backend_read_stop 8 c5_backend.byte_tmo_ms c5_backend.ack_tmo_ms
           [⟨0, 301⟩] 0 0 = ReadStop.byteTmo))) :=
  ⟨by decide, c5_backend_read_spec c5_backend true 8 [⟨0, 301⟩] 0 (by decide)⟩
